import Mathlib

/-!
Shallow embedding of the crispy-broccoli ingestion pipeline: the columnar
API response model, the row parsers, the rate-limited paginated client
loops, the batch repository with decimal sanitization, and the streaming
ingestion handlers.  Definitions are translated from the Go source
(internal/ingest, internal/db, internal/handlers and the migration files);
the theorems at the end settle the specification claims C1 to C10.
-/

set_option maxHeartbeats 1000000

namespace Ingest

/-- A cell of a columnar response row: models the Go interface values
produced by JSON decoding (nil, string, float64, bool).  Numbers are
modelled as rationals, as is the arbitrary-precision decimal.Decimal. -/
inductive Value where
  | null : Value
  | str : String → Value
  | num : ℚ → Value
  | bool : Bool → Value
deriving Repr, DecidableEq

/-- A timestamp as produced by Go time.Parse on the layouts tried by
getTime.  Field-range validation approximates Go calendar validation;
no claim depends on exactly which strings denote valid dates, only on
the success or failure of parsing being propagated. -/
structure GoTime where
  year : Nat
  month : Nat
  day : Nat
  hour : Nat
  minute : Nat
  second : Nat
deriving Repr, DecidableEq

/-- The zero Go time.Time (year 1, January 1). -/
def goTimeZero : GoTime := ⟨1, 1, 1, 0, 0, 0⟩

def digitVal (c : Char) : Option Nat :=
  if c.isDigit then some (c.toNat - 48) else none

def num2 (a b : Char) : Option Nat := do
  let x ← digitVal a
  let y ← digitVal b
  pure (10 * x + y)

def num4 (a b c d : Char) : Option Nat := do
  let x ← num2 a b
  let y ← num2 c d
  pure (100 * x + y)

def mkGoTime (y mo d h mi s : Nat) : Option GoTime :=
  if 1 ≤ mo ∧ mo ≤ 12 ∧ 1 ≤ d ∧ d ≤ 31 ∧ h ≤ 23 ∧ mi ≤ 59 ∧ s ≤ 59 then
    some ⟨y, mo, d, h, mi, s⟩
  else none

/-- Models time.Parse tried on the three layouts of getTime, in order:
"2006-01-02", "2006-01-02T15:04:05.000Z", "2006-01-02 15:04:05".
The layouts match disjoint string lengths, so trying them in order is
the same as matching on the shape. -/
def parseGoTime (s : String) : Option GoTime :=
  match s.toList with
  | [y1, y2, y3, y4, '-', m1, m2, '-', d1, d2] => do
      let y ← num4 y1 y2 y3 y4
      let mo ← num2 m1 m2
      let d ← num2 d1 d2
      mkGoTime y mo d 0 0 0
  | [y1, y2, y3, y4, '-', m1, m2, '-', d1, d2, 'T', h1, h2, ':', mi1, mi2, ':',
     s1, s2, '.', f1, f2, f3, 'Z'] => do
      let y ← num4 y1 y2 y3 y4
      let mo ← num2 m1 m2
      let d ← num2 d1 d2
      let h ← num2 h1 h2
      let mi ← num2 mi1 mi2
      let se ← num2 s1 s2
      let _ ← num2 f1 f2
      let _ ← digitVal f3
      mkGoTime y mo d h mi se
  | [y1, y2, y3, y4, '-', m1, m2, '-', d1, d2, ' ', h1, h2, ':', mi1, mi2, ':',
     s1, s2] => do
      let y ← num4 y1 y2 y3 y4
      let mo ← num2 m1 m2
      let d ← num2 d1 d2
      let h ← num2 h1 h2
      let mi ← num2 mi1 mi2
      let se ← num2 s1 s2
      mkGoTime y mo d h mi se
  | _ => none

/-- Column of a columnar response.  The second field is named Type in the
source; Type is a Lean keyword. -/
structure Column where
  Name : String
  TypeName : String
deriving Repr, DecidableEq

structure Datatable where
  Data : List (List Value)
  Columns : List Column
deriving Repr, DecidableEq

structure Meta where
  NextCursorID : Option String
deriving Repr, DecidableEq

/-- The raw API response shape from the Nasdaq Data Link Tables API. -/
structure Response where
  Datatable : Datatable
  Meta : Meta
deriving Repr, DecidableEq

/-- buildColumnIndex: the name-to-index map built once per response; for
duplicate column names the later index wins, as with the Go map writes. -/
def buildColumnIndex (columns : List Column) : String → Option Nat := fun name =>
  columns.enum.foldl (fun acc p => if p.2.Name = name then some p.1 else acc) none

/-- The guard shared by every accessor: a missing column, an index out of
bounds, or a nil cell all yield none. -/
def cellAt (row : List Value) (idx : String → Option Nat) (col : String) : Option Value :=
  match idx col with
  | none => none
  | some i =>
    match row.get? i with
    | none => none
    | some Value.null => none
    | some v => some v

/-- Models the fmt.Sprintf fallback of getString.  The exact rendering of
numbers is irrelevant to every claim; only the string/nil cases matter. -/
def fmtValue : Value → String
  | Value.null => "<nil>"
  | Value.str s => s
  | Value.num q => toString q.num ++ (if q.den = 1 then "" else "/" ++ toString q.den)
  | Value.bool b => if b then "true" else "false"

def getString (row : List Value) (idx : String → Option Nat) (col : String) : String :=
  match cellAt row idx col with
  | none => ""
  | some (Value.str s) => s
  | some v => fmtValue v

def getBool (row : List Value) (idx : String → Option Nat) (col : String) : Bool :=
  match cellAt row idx col with
  | some (Value.bool b) => b
  | some (Value.str s) => s == "Y" || s == "true" || s == "1"
  | some (Value.num x) => decide (x ≠ 0)
  | _ => false

def parseDigitsAux : List Char → Nat → Option Nat
  | [], acc => some acc
  | c :: cs, acc =>
    match digitVal c with
    | none => none
    | some d => parseDigitsAux cs (10 * acc + d)

def parseDigits (cs : List Char) : Option Nat :=
  if cs.isEmpty then none else parseDigitsAux cs 0

/-- Models decimal.NewFromString on plain decimal literals (optional sign,
integer digits, optional fractional digits).  No claim depends on the
exact accepted grammar, only on failure yielding an absent value. -/
def parseDecimalString (s : String) : Option ℚ :=
  let p : ℚ × List Char :=
    match s.toList with
    | '-' :: rest => (-1, rest)
    | '+' :: rest => (1, rest)
    | cs => (1, cs)
  match p.2.span Char.isDigit with
  | (intPart, []) => (parseDigits intPart).map (fun n => p.1 * (n : ℚ))
  | (intPart, dot :: fracPart) =>
    if dot = '.' then
      match parseDigits intPart, parseDigits fracPart with
      | some n, some f =>
        some (p.1 * ((n : ℚ) + (f : ℚ) / ((10 : ℚ) ^ fracPart.length)))
      | _, _ => none
    else none

def getDecimal (row : List Value) (idx : String → Option Nat) (col : String) : Option ℚ :=
  match cellAt row idx col with
  | some (Value.num x) => some x
  | some (Value.str s) => parseDecimalString s
  | _ => none

/-- Go int64 conversion of a float64 truncates toward zero.  The int64 and
int cases of the Go switch cannot arise from JSON decoding. -/
def goTrunc (x : ℚ) : Int := if 0 ≤ x then ⌊x⌋ else ⌈x⌉

def getInt64 (row : List Value) (idx : String → Option Nat) (col : String) : Option Int :=
  match cellAt row idx col with
  | some (Value.num x) => some (goTrunc x)
  | _ => none

def getTime (row : List Value) (idx : String → Option Nat) (col : String) : Option GoTime :=
  match cellAt row idx col with
  | some (Value.str s) => if s = "" then none else parseGoTime s
  | _ => none

/-- Row of SHARADAR/TICKERS. -/
structure TickerRow where
  Ticker : String
  Name : String
  Exchange : String
  Sector : String
  Industry : String
  ScaleRevenue : String
  IsDelisted : Bool
  LastUpdated : Option GoTime
deriving Repr, DecidableEq

/-- Row of SHARADAR/SF1 (fundamentals). -/
structure SF1Row where
  Ticker : String
  Dimension : String
  CalendarDate : GoTime
  DateKey : GoTime
  LastUpdated : Option GoTime
  Revenue : Option ℚ
  NetIncome : Option ℚ
  EBITDA : Option ℚ
  FCF : Option ℚ
  ROIC : Option ℚ
  PE : Option ℚ
  EVEBIT : Option ℚ
  PB : Option ℚ
  DE : Option ℚ
  MarketCap : Option ℚ
  EV : Option ℚ
  Price : Option ℚ
  ReportPeriod : Option GoTime
deriving Repr, DecidableEq

/-- Row of SHARADAR/DAILY (daily prices). -/
structure DailyRow where
  Ticker : String
  Date : GoTime
  Open : Option ℚ
  High : Option ℚ
  Low : Option ℚ
  Close : Option ℚ
  Volume : Option Int
  Dividends : Option ℚ
  CloseUnadj : Option ℚ
  MarketCap : Option ℚ
  EV : Option ℚ
  PE : Option ℚ
  PB : Option ℚ
  LastUpdated : Option GoTime
deriving Repr, DecidableEq

/-- Row of SHARADAR/SP500.  Date keeps the Go zero value when absent. -/
structure SP500Row where
  Date : GoTime
  Action : String
  Ticker : String
  Name : String
  Conticker : String
  Conname : String
deriving Repr, DecidableEq

def tickerOfRow (idx : String → Option Nat) (row : List Value) : TickerRow :=
  { Ticker := getString row idx "ticker"
    Name := getString row idx "name"
    Exchange := getString row idx "exchange"
    Sector := getString row idx "sector"
    Industry := getString row idx "industry"
    ScaleRevenue := getString row idx "scalerevenue"
    IsDelisted := getBool row idx "isdelisted"
    LastUpdated := getTime row idx "lastupdated" }

/-- ParseTickers: builds a record per data row and keeps those with a
non-empty ticker; the Go function always returns a nil error. -/
def ParseTickers (resp : Response) : Except String (List TickerRow) :=
  let idx := buildColumnIndex resp.Datatable.Columns
  Except.ok ((resp.Datatable.Data.map (tickerOfRow idx)).filter (fun tr => tr.Ticker != ""))

/-- The per-row body of ParseSF1: rows without a datekey are skipped, a
missing calendardate falls back to datekey. -/
def sf1OfRow (idx : String → Option Nat) (row : List Value) : Option SF1Row :=
  match getTime row idx "datekey" with
  | none => none
  | some dateKey =>
    let calendarDate := (getTime row idx "calendardate").getD dateKey
    some
      { Ticker := getString row idx "ticker"
        Dimension := getString row idx "dimension"
        CalendarDate := calendarDate
        DateKey := dateKey
        LastUpdated := getTime row idx "lastupdated"
        Revenue := getDecimal row idx "revenue"
        NetIncome := getDecimal row idx "netinc"
        EBITDA := getDecimal row idx "ebitda"
        FCF := getDecimal row idx "fcf"
        ROIC := getDecimal row idx "roic"
        PE := getDecimal row idx "pe"
        EVEBIT := getDecimal row idx "evebit"
        PB := getDecimal row idx "pb"
        DE := getDecimal row idx "de"
        MarketCap := getDecimal row idx "marketcap"
        EV := getDecimal row idx "ev"
        Price := getDecimal row idx "price"
        ReportPeriod := getTime row idx "reportperiod" }

/-- ParseSF1: skips rows without a datekey, keeps rows with a non-empty
ticker; always returns a nil error. -/
def ParseSF1 (resp : Response) : Except String (List SF1Row) :=
  let idx := buildColumnIndex resp.Datatable.Columns
  Except.ok ((resp.Datatable.Data.filterMap (sf1OfRow idx)).filter (fun sr => sr.Ticker != ""))

/-- The per-row body of ParseDaily: rows without a date are skipped. -/
def dailyOfRow (idx : String → Option Nat) (row : List Value) : Option DailyRow :=
  match getTime row idx "date" with
  | none => none
  | some date =>
    some
      { Ticker := getString row idx "ticker"
        Date := date
        Open := getDecimal row idx "open"
        High := getDecimal row idx "high"
        Low := getDecimal row idx "low"
        Close := getDecimal row idx "close"
        Volume := getInt64 row idx "volume"
        Dividends := getDecimal row idx "dividends"
        CloseUnadj := getDecimal row idx "closeunadj"
        MarketCap := getDecimal row idx "marketcap"
        EV := getDecimal row idx "ev"
        PE := getDecimal row idx "pe"
        PB := getDecimal row idx "pb"
        LastUpdated := getTime row idx "lastupdated" }

/-- ParseDaily: skips rows without a date, keeps rows with a non-empty
ticker; always returns a nil error (the debug logging is side-effect
only). -/
def ParseDaily (resp : Response) : Except String (List DailyRow) :=
  let idx := buildColumnIndex resp.Datatable.Columns
  Except.ok ((resp.Datatable.Data.filterMap (dailyOfRow idx)).filter (fun dr => dr.Ticker != ""))

def sp500OfRow (idx : String → Option Nat) (row : List Value) : SP500Row :=
  { Date := (getTime row idx "date").getD goTimeZero
    Action := getString row idx "action"
    Ticker := getString row idx "ticker"
    Name := getString row idx "name"
    Conticker := getString row idx "conticker"
    Conname := getString row idx "conname" }

/-- ParseSP500: keeps rows with a non-empty ticker; always returns a nil
error. -/
def ParseSP500 (resp : Response) : Except String (List SP500Row) :=
  let idx := buildColumnIndex resp.Datatable.Columns
  Except.ok ((resp.Datatable.Data.map (sp500OfRow idx)).filter (fun sr => sr.Ticker != ""))

/-- Failure modes of a single doRequest call. -/
inductive FetchError where
  | network : String → FetchError
  | rateLimited : FetchError
  | status : Nat → String → FetchError
  | decode : String → FetchError
  | ctxCanceled : FetchError
deriving Repr, DecidableEq

/-- The retry loop of fetchPage.  doReq n is the outcome of the n-th
doRequest call; canceled n is whether ctx.Err() is non-nil at the check
performed after attempt n fails.  Returns the result, the number of
doRequest calls performed, and the backoff waits in seconds performed
before each retry.  After the attempt list is exhausted the last error is
surfaced (the Go code wraps it in an "all retries failed" message that
preserves the underlying error). -/
def retryLoop (doReq : Nat → Except FetchError Response) (canceled : Nat → Bool) :
    List Nat → FetchError → Except FetchError Response × Nat × List Nat
  | [], lastErr => (Except.error lastErr, 0, [])
  | a :: rest, _ =>
    let waits : List Nat := if a > 0 then [2 ^ a] else []
    match doReq a with
    | Except.ok r => (Except.ok r, 1, waits)
    | Except.error e =>
      if canceled a then (Except.error FetchError.ctxCanceled, 1, waits)
      else
        let res := retryLoop doReq canceled rest e
        (res.1, res.2.1 + 1, waits ++ res.2.2)

/-- fetchPage performs up to 3 attempts (attempt indices 0, 1, 2). -/
def fetchPage (doReq : Nat → Except FetchError Response) (canceled : Nat → Bool) :
    Except FetchError Response × Nat × List Nat :=
  retryLoop doReq canceled [0, 1, 2] (FetchError.network "")

def emptyResponse : Response :=
  { Datatable := { Data := [], Columns := [] }, Meta := { NextCursorID := none } }

/-- The merge step of FetchTable: columns are taken from a page only when
none have been recorded yet, data rows are appended, and the accumulated
Meta is never assigned (it stays nil). -/
def mergeResp (acc p : Response) : Response :=
  { Datatable :=
      { Columns :=
          if acc.Datatable.Columns.isEmpty then p.Datatable.Columns
          else acc.Datatable.Columns
        Data := acc.Datatable.Data ++ p.Datatable.Data }
    Meta := acc.Meta }

/-- The pagination-termination test of FetchTable: the loop breaks when
next_cursor_id is nil or the empty string. -/
def stopCursor (p : Response) : Bool :=
  match p.Meta.NextCursorID with
  | none => true
  | some c => c == ""

/-- The pagination loop of FetchTable, applied to the sequence of
successful fetchPage results; none models a page fetch failing (retry
budget exhausted) before a terminating page was seen. -/
def fetchTableLoop (acc : Response) : List Response → Option Response
  | [] => none
  | p :: rest =>
    let acc1 := mergeResp acc p
    if stopCursor p then some acc1 else fetchTableLoop acc1 rest

/-- FetchTable: fetch pages until one carries a nil or empty cursor. -/
def FetchTable (pages : List Response) : Option Response :=
  fetchTableLoop emptyResponse pages

/-- Specification helper: the prefix of pages FetchTable actually
consumes, ending at the first page whose cursor is nil or empty. -/
def consumedPages : List Response → Option (List Response)
  | [] => none
  | p :: rest =>
    if stopCursor p then some [p]
    else (consumedPages rest).map (fun ps => p :: ps)

/-- Specification helper: the column list of the first page whose column
list is non-empty. -/
def firstColumns : List Response → List Column
  | [] => []
  | p :: rest =>
    if p.Datatable.Columns.isEmpty then firstColumns rest else p.Datatable.Columns

/-- Specification helper: the merged response FetchTable returns for a
given consumed prefix of pages. -/
def mergeAll (ps : List Response) : Response :=
  { Datatable :=
      { Columns := firstColumns ps
        Data := (ps.map (fun p => p.Datatable.Data)).flatten }
    Meta := { NextCursorID := none } }

end Ingest

namespace Db

open Ingest

/-- Rows per database batch (const dbBatchSize in repository.go). -/
def dbBatchSize : Nat := 1000

/-- Limit for DECIMAL(18,2): 10 to the 16th. -/
def maxDecimal18_2 : ℚ := 10 ^ (16 : Nat)

/-- Limit for DECIMAL(18,4): 10 to the 14th. -/
def maxDecimal18_4 : ℚ := 10 ^ (14 : Nat)

/-- Limit for DECIMAL(18,6): 10 to the 12th. -/
def maxDecimal18_6 : ℚ := 10 ^ (12 : Nat)

/-- The limit sanitizeDecimal selects for a scale; any scale other than
2, 4 or 6 falls back to the DECIMAL(18,4) limit. -/
def limitForScale (scale : Nat) : ℚ :=
  match scale with
  | 2 => maxDecimal18_2
  | 4 => maxDecimal18_4
  | 6 => maxDecimal18_6
  | _ => maxDecimal18_4

/-- decimalPtr: nil pointer binds SQL null, otherwise the value; no
sanitization. -/
def decimalPtr (d : Option ℚ) : Option ℚ :=
  match d with
  | none => none
  | some x => some x

/-- sanitizeDecimal: nil stays null; a value whose absolute value exceeds
the limit for the scale is logged and bound as null; otherwise the value
is bound unchanged.  The field and ticker arguments only feed the log
message. -/
def sanitizeDecimal (d : Option ℚ) (field ticker : String) (scale : Nat) : Option ℚ :=
  match d with
  | none => none
  | some x =>
    let limit := limitForScale scale
    if |x| > limit then none else some x

/-- The DECIMAL scale of each numeric daily_prices column, from migration
002 as amended by migration 005 (pe_ratio and pb_ratio widened to
DECIMAL(18,4)). -/
def dailyPricesColumnScale (col : String) : Option Nat :=
  if col = "open" ∨ col = "high" ∨ col = "low" ∨ col = "close" ∨
     col = "dividends" ∨ col = "close_unadj" then some 6
  else if col = "market_cap" ∨ col = "enterprise_value" then some 2
  else if col = "pe_ratio" ∨ col = "pb_ratio" then some 4
  else none

/-- The DECIMAL scale of each numeric benchmark_prices column, from
migration 003: every price column is DECIMAL(18,6). -/
def benchmarkPricesColumnScale (col : String) : Option Nat :=
  if col = "open" ∨ col = "high" ∨ col = "low" ∨ col = "close" ∨
     col = "dividends" ∨ col = "close_unadj" then some 6
  else none

/-- The parameters bound by the companies upsert statement of
UpsertCompanies. -/
structure CompanyParams where
  Ticker : String
  Name : String
  Sector : String
  Industry : String
  Active : Bool
deriving Repr, DecidableEq

def companyParams (t : TickerRow) : CompanyParams :=
  { Ticker := t.Ticker
    Name := t.Name
    Sector := t.Sector
    Industry := t.Industry
    Active := !t.IsDelisted }

/-- The statements queued by the UpsertCompanies loop. -/
def companiesBatchQueue (tickers : List TickerRow) : List CompanyParams :=
  tickers.map companyParams

/-- The parameters bound by the financial_metrics upsert statement of
upsertFinancialMetricsBatch.  The server-assigned updated_at timestamp is
not a bound parameter and is not modelled. -/
structure FinancialMetricsParams where
  Ticker : String
  Dimension : String
  DateKey : GoTime
  ReportPeriod : GoTime
  Revenue : Option ℚ
  NetIncome : Option ℚ
  EBITDA : Option ℚ
  FCF : Option ℚ
  ROIC : Option ℚ
  PE : Option ℚ
  EVEBIT : Option ℚ
  PB : Option ℚ
  DE : Option ℚ
  MarketCap : Option ℚ
  EV : Option ℚ
  Price : Option ℚ
  LastUpdated : Option GoTime
deriving Repr, DecidableEq

def financialMetricsParams (row : SF1Row) : FinancialMetricsParams :=
  { Ticker := row.Ticker
    Dimension := row.Dimension
    DateKey := row.DateKey
    ReportPeriod := row.ReportPeriod.getD row.DateKey
    Revenue := sanitizeDecimal row.Revenue "revenue" row.Ticker 2
    NetIncome := sanitizeDecimal row.NetIncome "net_income" row.Ticker 2
    EBITDA := sanitizeDecimal row.EBITDA "ebitda" row.Ticker 2
    FCF := sanitizeDecimal row.FCF "fcf" row.Ticker 2
    ROIC := sanitizeDecimal row.ROIC "roic" row.Ticker 4
    PE := sanitizeDecimal row.PE "pe_ratio" row.Ticker 4
    EVEBIT := sanitizeDecimal row.EVEBIT "ev_ebit" row.Ticker 4
    PB := sanitizeDecimal row.PB "pb_ratio" row.Ticker 4
    DE := sanitizeDecimal row.DE "debt_to_equity" row.Ticker 4
    MarketCap := sanitizeDecimal row.MarketCap "market_cap" row.Ticker 2
    EV := sanitizeDecimal row.EV "enterprise_value" row.Ticker 2
    Price := sanitizeDecimal row.Price "price" row.Ticker 6
    LastUpdated := row.LastUpdated }

/-- The statements queued by the upsertFinancialMetricsBatch loop. -/
def metricsBatchQueue (rows : List SF1Row) : List FinancialMetricsParams :=
  rows.map financialMetricsParams

/-- The parameters bound by the daily_prices upsert statement of
upsertDailyPricesBatch. -/
structure DailyPriceParams where
  Ticker : String
  Date : GoTime
  Open : Option ℚ
  High : Option ℚ
  Low : Option ℚ
  Close : Option ℚ
  Volume : Option Int
  Dividends : Option ℚ
  CloseUnadj : Option ℚ
  MarketCap : Option ℚ
  EV : Option ℚ
  PE : Option ℚ
  PB : Option ℚ
  LastUpdated : Option GoTime
deriving Repr, DecidableEq

def dailyPriceParams (row : DailyRow) : DailyPriceParams :=
  { Ticker := row.Ticker
    Date := row.Date
    Open := decimalPtr row.Open
    High := decimalPtr row.High
    Low := decimalPtr row.Low
    Close := decimalPtr row.Close
    Volume := row.Volume
    Dividends := decimalPtr row.Dividends
    CloseUnadj := decimalPtr row.CloseUnadj
    MarketCap := sanitizeDecimal row.MarketCap "market_cap" row.Ticker 2
    EV := sanitizeDecimal row.EV "enterprise_value" row.Ticker 2
    PE := sanitizeDecimal row.PE "pe_ratio" row.Ticker 4
    PB := sanitizeDecimal row.PB "pb_ratio" row.Ticker 4
    LastUpdated := row.LastUpdated }

/-- The statements queued by the upsertDailyPricesBatch loop. -/
def dailyBatchQueue (rows : List DailyRow) : List DailyPriceParams :=
  rows.map dailyPriceParams

/-- The parameters bound by the benchmark_prices upsert statement of
UpsertBenchmarkPrices: every decimal goes through decimalPtr, none
through sanitizeDecimal. -/
structure BenchmarkPriceParams where
  Ticker : String
  Date : GoTime
  Open : Option ℚ
  High : Option ℚ
  Low : Option ℚ
  Close : Option ℚ
  Volume : Option Int
  Dividends : Option ℚ
  CloseUnadj : Option ℚ
  LastUpdated : Option GoTime
deriving Repr, DecidableEq

def benchmarkPriceParams (row : DailyRow) : BenchmarkPriceParams :=
  { Ticker := row.Ticker
    Date := row.Date
    Open := decimalPtr row.Open
    High := decimalPtr row.High
    Low := decimalPtr row.Low
    Close := decimalPtr row.Close
    Volume := row.Volume
    Dividends := decimalPtr row.Dividends
    CloseUnadj := decimalPtr row.CloseUnadj
    LastUpdated := row.LastUpdated }

/-- The statements queued by the UpsertBenchmarkPrices loop. -/
def benchmarkBatchQueue (rows : List DailyRow) : List BenchmarkPriceParams :=
  rows.map benchmarkPriceParams

/-- The br.Exec() loop over one sent batch, statement indices start..n-1.
fail i says whether Exec of the i-th queued statement returns an error
(the store's behaviour is external and is abstracted as this oracle).
Returns the count of statements executed before the first failure and
whether the loop returned an error; on the first failure the remaining
statements of the batch are abandoned. -/
def execBatchFrom (fail : Nat → Bool) (start : Nat) : Nat → Nat × Bool
  | 0 => (0, false)
  | n + 1 =>
    if fail start then (0, true)
    else
      let res := execBatchFrom fail (start + 1) n
      (res.1 + 1, res.2)

def execBatchLoop (fail : Nat → Bool) (n : Nat) : Nat × Bool :=
  execBatchFrom fail 0 n

/-- UpsertCompanies: empty input is a no-op; otherwise the entire input is
queued as a single batch (no chunking) and the Exec loop returns the
count so far together with an error as soon as one statement fails. -/
def UpsertCompanies (fail : Nat → Bool) (tickers : List TickerRow) : Nat × Bool :=
  if tickers.isEmpty then (0, false)
  else execBatchLoop fail tickers.length

/-- UpsertBenchmarkPrices executes the same single-batch loop. -/
def UpsertBenchmarkPrices (fail : Nat → Bool) (rows : List DailyRow) : Nat × Bool :=
  if rows.isEmpty then (0, false)
  else execBatchLoop fail rows.length

/-- Splitting a slice into consecutive chunks of at most size rows,
mirroring the loop for i := 0; i < len(rows); i += dbBatchSize. -/
def chunksOf (size : Nat) : List α → List (List α)
  | [] => []
  | x :: xs => (x :: xs.take (size - 1)) :: chunksOf size (xs.drop (size - 1))
termination_by l => l.length
decreasing_by
  simp only [List.length_drop, List.length_cons]
  omega

/-- The chunked upsert shared by UpsertFinancialMetrics and
UpsertDailyPrices: each chunk of at most dbBatchSize rows is committed
independently through execBatch (the per-chunk batch outcome, abstracted
as an oracle over the chunk), counts are accumulated across every chunk,
a failing chunk only records lastErr, and the operation reports an error
exactly when some chunk failed and the aggregate count is zero. -/
def upsertChunked (execBatch : List α → Nat × Bool) (rows : List α) : Nat × Bool :=
  if rows.isEmpty then (0, false)
  else
    let results := (chunksOf dbBatchSize rows).map execBatch
    let total := (results.map Prod.fst).sum
    let anyErr := results.any Prod.snd
    if anyErr && decide (total = 0) then (0, true) else (total, false)

/-- UpsertFinancialMetrics: chunked upsert of SF1 rows. -/
def UpsertFinancialMetrics (execBatch : List SF1Row → Nat × Bool)
    (rows : List SF1Row) : Nat × Bool :=
  upsertChunked execBatch rows

/-- UpsertDailyPrices: chunked upsert of daily rows. -/
def UpsertDailyPrices (execBatch : List DailyRow → Nat × Bool)
    (rows : List DailyRow) : Nat × Bool :=
  upsertChunked execBatch rows

/-- A stored table with a uniqueness constraint, as an association list
from the declared identity key to the bound non-key record. -/
abbrev Table (κ α : Type) : Type := List (κ × α)

/-- INSERT ... ON CONFLICT (key) DO UPDATE SET of every non-key column:
on a key conflict the conflicting entry is overwritten with the new
values, otherwise a new row is appended. -/
def upsertRow [DecidableEq κ] (t : Table κ α) (k : κ) (v : α) : Table κ α :=
  if t.any (fun p => decide (p.1 = k)) then
    t.map (fun p => if p.1 = k then (k, v) else p)
  else t ++ [(k, v)]

def countKey [DecidableEq κ] (t : Table κ α) (k : κ) : Nat :=
  (t.filter (fun p => decide (p.1 = k))).length

def lookupKey [DecidableEq κ] (t : Table κ α) (k : κ) : Option α :=
  (t.find? (fun p => decide (p.1 = k))).map Prod.snd

/-- The uniqueness constraint the store maintains: no two rows share an
identity key. -/
def keysNodup [DecidableEq κ] (t : Table κ α) : Prop :=
  (t.map Prod.fst).Nodup

/-- The identity key of the companies table (ON CONFLICT (ticker)). -/
def companiesKey (p : CompanyParams) : String := p.Ticker

/-- The identity key of financial_metrics
(ON CONFLICT (ticker, date_key, dimension)). -/
def metricsKey (p : FinancialMetricsParams) : String × GoTime × String :=
  (p.Ticker, p.DateKey, p.Dimension)

/-- The identity key of daily_prices (ON CONFLICT (ticker, date)). -/
def dailyKey (p : DailyPriceParams) : String × GoTime := (p.Ticker, p.Date)

/-- The identity key of benchmark_prices (ON CONFLICT (ticker, date)). -/
def benchmarkKey (p : BenchmarkPriceParams) : String × GoTime := (p.Ticker, p.Date)

/-- Effect on the companies table of the statement UpsertCompanies queues
for one ticker row. -/
def applyCompaniesUpsert (t : Table String CompanyParams) (row : TickerRow) :
    Table String CompanyParams :=
  let p := companyParams row
  upsertRow t (companiesKey p) p

/-- Effect on financial_metrics of the statement
upsertFinancialMetricsBatch queues for one SF1 row. -/
def applyMetricsUpsert (t : Table (String × GoTime × String) FinancialMetricsParams)
    (row : SF1Row) : Table (String × GoTime × String) FinancialMetricsParams :=
  let p := financialMetricsParams row
  upsertRow t (metricsKey p) p

/-- Effect on daily_prices of the statement upsertDailyPricesBatch queues
for one daily row. -/
def applyDailyUpsert (t : Table (String × GoTime) DailyPriceParams)
    (row : DailyRow) : Table (String × GoTime) DailyPriceParams :=
  let p := dailyPriceParams row
  upsertRow t (dailyKey p) p

/-- Effect on benchmark_prices of the statement UpsertBenchmarkPrices
queues for one daily row. -/
def applyBenchmarkUpsert (t : Table (String × GoTime) BenchmarkPriceParams)
    (row : DailyRow) : Table (String × GoTime) BenchmarkPriceParams :=
  let p := benchmarkPriceParams row
  upsertRow t (benchmarkKey p) p

end Db

namespace Handlers

open Ingest Db

/-- One message received from a FetchSF1Stream or FetchDailyStream
channel: a batch of parsed rows or a fetch-level error. -/
structure SF1Batch where
  Rows : List SF1Row
  Error : Option String
deriving Repr, DecidableEq

structure DailyBatch where
  Rows : List DailyRow
  Error : Option String
deriving Repr, DecidableEq

/-- The receive loop of IngestFundamentals for one dimension: on a batch
error the loop records fetchErr and breaks (later channel messages are
never read); an empty batch is skipped; otherwise an upsert is
dispatched and its returned count is added to the running total (its
error is only logged).  upsert abstracts UpsertFinancialMetrics applied
against the store.  Returns the rows counted for this dimension and the
recorded fetch error. -/
def fundamentalsDimLoop (upsert : List SF1Row → Nat × Bool) :
    List SF1Batch → Nat × Option String
  | [] => (0, none)
  | b :: rest =>
    match b.Error with
    | some e => (0, some e)
    | none =>
      let c := if b.Rows.isEmpty then 0 else (upsert b.Rows).1
      let res := fundamentalsDimLoop upsert rest
      (c + res.1, res.2)

/-- The dimension loop of IngestFundamentals: dimensions are processed in
order; after a dimension's receive loop finishes (and its writes are
joined), a recorded fetch error makes the handler return a failure
response immediately, abandoning later dimensions.  Returns the total
rows written across the dimensions that ran and the success flag of the
response. -/
def ingestFundamentalsGo (upsert : List SF1Row → Nat × Bool) :
    List (List SF1Batch) → Nat → Nat × Bool
  | [], acc => (acc, true)
  | d :: rest, acc =>
    let res := fundamentalsDimLoop upsert d
    match res.2 with
    | some _ => (acc + res.1, false)
    | none => ingestFundamentalsGo upsert rest (acc + res.1)

/-- IngestFundamentals after its preliminary checks (ticker filter and
company count), given the batch stream of each requested dimension. -/
def IngestFundamentals (upsert : List SF1Row → Nat × Bool)
    (dims : List (List SF1Batch)) : Nat × Bool :=
  ingestFundamentalsGo upsert dims 0

/-- The receive loop of IngestDaily: a batch error records fetchErr and
continues with later batches; an empty batch is skipped; when the
handler was given an explicit ticker list (fetchAllFromDB false) rows
are filtered through CompanyExists (exists2 abstracts an error-free
existence check); a batch left empty by the filter is skipped; otherwise
an upsert is dispatched and its count accumulated (its error only
logged).  Returns the accumulated count and whether a fetch error was
recorded. -/
def dailyLoop (exists2 : String → Bool) (fetchAllFromDB : Bool)
    (upsert : List DailyRow → Nat × Bool) : List DailyBatch → Nat × Bool
  | [] => (0, false)
  | b :: rest =>
    match b.Error with
    | some _ =>
      let res := dailyLoop exists2 fetchAllFromDB upsert rest
      (res.1, true)
    | none =>
      if b.Rows.isEmpty then dailyLoop exists2 fetchAllFromDB upsert rest
      else
        let rowsToUpsert :=
          if fetchAllFromDB then b.Rows
          else b.Rows.filter (fun r => exists2 r.Ticker)
        if rowsToUpsert.isEmpty then dailyLoop exists2 fetchAllFromDB upsert rest
        else
          let c := (upsert rowsToUpsert).1
          let res := dailyLoop exists2 fetchAllFromDB upsert rest
          (c + res.1, res.2)

/-- IngestDaily after its preliminary checks: the response is a failure
exactly when a fetch error was recorded and zero rows were written.
Returns the count and the success flag. -/
def IngestDaily (exists2 : String → Bool) (fetchAllFromDB : Bool)
    (upsert : List DailyRow → Nat × Bool) (batches : List DailyBatch) : Nat × Bool :=
  let res := dailyLoop exists2 fetchAllFromDB upsert batches
  (res.1, !(res.2 && decide (res.1 = 0)))

end Handlers

namespace Samples

open Ingest

/-- Concrete inputs used by the counterexamples and witnesses below. -/
def d0 : GoTime := ⟨2024, 1, 2, 0, 0, 0⟩

def tickerA : TickerRow :=
  { Ticker := "AAPL", Name := "Apple Inc", Exchange := "NASDAQ", Sector := "Tech"
    Industry := "Hardware", ScaleRevenue := "6", IsDelisted := false, LastUpdated := none }

def tickerB : TickerRow :=
  { Ticker := "ENRN", Name := "Enron", Exchange := "NYSE", Sector := "Energy"
    Industry := "Utilities", ScaleRevenue := "5", IsDelisted := true, LastUpdated := none }

def sf1A : SF1Row :=
  { Ticker := "AAPL", Dimension := "ARQ", CalendarDate := d0, DateKey := d0
    LastUpdated := none, Revenue := some 100, NetIncome := some 10, EBITDA := none
    FCF := none, ROIC := none, PE := none, EVEBIT := none, PB := none, DE := none
    MarketCap := none, EV := none, Price := none, ReportPeriod := none }

/-- A daily row whose open price exceeds the DECIMAL(18,6) magnitude
limit of the open column. -/
def bigOpenRow : DailyRow :=
  { Ticker := "SPY", Date := d0, Open := some ((10 : ℚ) ^ (13 : Nat)), High := none
    Low := none, Close := none, Volume := none, Dividends := none, CloseUnadj := none
    MarketCap := none, EV := none, PE := none, PB := none, LastUpdated := none }

/-- An upsert oracle under which every row is written successfully. -/
def allOkUpsertSF1 : List SF1Row → Nat × Bool := fun rows => (rows.length, false)

/-- A first page carrying an empty column list and a non-empty cursor. -/
def pageNoCols : Response :=
  { Datatable := { Data := [[Value.str "AAPL"]], Columns := [] }
    Meta := { NextCursorID := some "abc" } }

/-- A second page carrying the column list and an absent cursor. -/
def pageWithCols : Response :=
  { Datatable :=
      { Data := [[Value.str "MSFT"]]
        Columns := [{ Name := "ticker", TypeName := "String" }] }
    Meta := { NextCursorID := none } }

def mergedC5 : Response :=
  { Datatable :=
      { Data := [[Value.str "AAPL"], [Value.str "MSFT"]]
        Columns := [{ Name := "ticker", TypeName := "String" }] }
    Meta := { NextCursorID := none } }

/-- doRequest outcomes where attempt 0 fails to decode and every later
attempt succeeds. -/
def decodeThenOk : Nat → Except FetchError Response := fun n =>
  if n = 0 then Except.error (FetchError.decode "invalid character") else Except.ok emptyResponse

/-- doRequest outcomes where every attempt fails to decode. -/
def decodeAlways : Nat → Except FetchError Response := fun n =>
  Except.error (FetchError.decode (toString n))

/-- Columns and data row of a one-row SF1 response with a valid datekey,
a ticker, and no reportperiod column. -/
def sf1Cols : List Column :=
  [{ Name := "ticker", TypeName := "String" }, { Name := "datekey", TypeName := "Date" }]

def sf1RawRow : List Value := [Value.str "AAPL", Value.str "2024-01-02"]

end Samples

/-! Helper lemmas about the batch Exec loop and chunking. -/

theorem execBatchFrom_err_iff (g : Nat → Bool) :
    ∀ n s : Nat, ((Db.execBatchFrom g s n).2 = true ↔ ∃ i, i < n ∧ g (s + i) = true) := by
  intro n
  induction n with
  | zero => intro s; simp [Db.execBatchFrom]
  | succ n ih =>
    intro s
    by_cases h : g s = true
    · have hstep : Db.execBatchFrom g s (n + 1) = (0, true) := by
        simp [Db.execBatchFrom, h]
      rw [hstep]
      exact ⟨fun _ => ⟨0, Nat.succ_pos n, by simpa using h⟩, fun _ => rfl⟩
    · have hstep : (Db.execBatchFrom g s (n + 1)).2 = (Db.execBatchFrom g (s + 1) n).2 := by
        simp [Db.execBatchFrom, h]
      rw [hstep]
      constructor
      · intro h2
        obtain ⟨i, hi, hg⟩ := (ih (s + 1)).mp h2
        refine ⟨i + 1, by omega, ?_⟩
        have : s + (i + 1) = s + 1 + i := by omega
        rwa [this]
      · intro h2
        obtain ⟨i, hi, hg⟩ := h2
        cases i with
        | zero => exact absurd (by simpa using hg) h
        | succ j =>
          refine (ih (s + 1)).mpr ⟨j, by omega, ?_⟩
          have : s + 1 + j = s + (j + 1) := by omega
          rwa [this]

theorem execBatchLoop_err_iff (g : Nat → Bool) (n : Nat) :
    ((Db.execBatchLoop g n).2 = true ↔ ∃ i, i < n ∧ g i = true) := by
  have h := execBatchFrom_err_iff g n 0
  simpa [Db.execBatchLoop] using h

theorem chunksOf_flatten {α : Type} (size : Nat) (l : List α) :
    (Db.chunksOf size l).flatten = l := by
  generalize hn : l.length = n
  induction n using Nat.strong_induction_on generalizing l with
  | _ n ih =>
    cases l with
    | nil => simp [Db.chunksOf]
    | cons x xs =>
      rw [Db.chunksOf]
      have hlen : (xs.drop (size - 1)).length < n := by
        simp only [List.length_drop]
        simp only [List.length_cons] at hn
        omega
      rw [List.flatten_cons, ih _ hlen _ rfl, List.cons_append, List.take_append_drop]

theorem chunksOf_len_le {α : Type} (size : Nat) (hs : 1 ≤ size) (l : List α) :
    (Db.chunksOf size l).all (fun c => decide (c.length ≤ size)) = true := by
  generalize hn : l.length = n
  induction n using Nat.strong_induction_on generalizing l with
  | _ n ih =>
    cases l with
    | nil => simp [Db.chunksOf]
    | cons x xs =>
      rw [Db.chunksOf]
      have hlen : (xs.drop (size - 1)).length < n := by
        simp only [List.length_drop]
        simp only [List.length_cons] at hn
        omega
      rw [List.all_cons, ih _ hlen _ rfl]
      have hmin : (size - 1) ⊓ xs.length ≤ size - 1 := inf_le_left
      simp only [Bool.and_true, decide_eq_true_eq, List.length_cons, List.length_take]
      omega

theorem upsertChunked_fst {α : Type} (f : List α → Nat × Bool) (rows : List α) :
    (Db.upsertChunked f rows).1 =
      (((Db.chunksOf Db.dbBatchSize rows).map f).map Prod.fst).sum := by
  unfold Db.upsertChunked
  by_cases h : rows.isEmpty
  · cases rows with
    | nil => simp [Db.chunksOf]
    | cons x xs => simp at h
  · simp only [h, if_false, Bool.false_eq_true]
    split
    · next hcond =>
      have := (Bool.and_eq_true _ _).mp hcond
      have h0 := of_decide_eq_true this.2
      omega
    · rfl

theorem upsertChunked_snd_iff {α : Type} (f : List α → Nat × Bool) (rows : List α) :
    ((Db.upsertChunked f rows).2 = true ↔
      ((Db.chunksOf Db.dbBatchSize rows).map f).any Prod.snd = true ∧
      (((Db.chunksOf Db.dbBatchSize rows).map f).map Prod.fst).sum = 0) := by
  unfold Db.upsertChunked
  by_cases h : rows.isEmpty
  · cases rows with
    | nil => simp [Db.chunksOf]
    | cons x xs => simp at h
  · simp only [h, if_false, Bool.false_eq_true]
    split
    · next hcond =>
      have := (Bool.and_eq_true _ _).mp hcond
      exact ⟨fun _ => ⟨this.1, of_decide_eq_true this.2⟩, fun _ => rfl⟩
    · next hcond =>
      simp only [Bool.and_eq_true, decide_eq_true_eq] at hcond
      constructor
      · intro hfalse; exact absurd hfalse (by simp)
      · intro ⟨h1, h2⟩; exact absurd ⟨h1, h2⟩ hcond

/-- C1 (amended).  sanitizeDecimal nulls exactly the values whose absolute
value exceeds the limit of the configured scale (10^16 for scale 2, 10^14
for scale 4, 10^12 for scale 6); it is applied to the twelve metric
fields bound by upsertFinancialMetricsBatch and to market_cap,
enterprise_value, pe_ratio and pb_ratio bound by upsertDailyPricesBatch,
and sanitization of one field never drops the row: every row of a batch
still queues a statement and the remaining fields are bound unchanged.
The open/high/low/close, dividends and close_unadj fields of daily prices
and every numeric field of UpsertBenchmarkPrices are bound through
decimalPtr with no magnitude check. -/
theorem claim_C1_sanitization :
    (∀ (x : ℚ) (field ticker : String) (scale : Nat),
        Db.sanitizeDecimal (some x) field ticker scale =
          if |x| > Db.limitForScale scale then none else some x) ∧
    (∀ (field ticker : String) (scale : Nat),
        Db.sanitizeDecimal none field ticker scale = none) ∧
    (Db.limitForScale 2 = (10 : ℚ) ^ (16 : Nat) ∧
      Db.limitForScale 4 = (10 : ℚ) ^ (14 : Nat) ∧
      Db.limitForScale 6 = (10 : ℚ) ^ (12 : Nat)) ∧
    (∀ rows : List Ingest.SF1Row, (Db.metricsBatchQueue rows).length = rows.length) ∧
    (∀ rows : List Ingest.DailyRow, (Db.dailyBatchQueue rows).length = rows.length) ∧
    (∀ rows : List Ingest.DailyRow, (Db.benchmarkBatchQueue rows).length = rows.length) ∧
    (∀ row : Ingest.DailyRow,
        (Db.dailyPriceParams row).Open = Db.decimalPtr row.Open ∧
        (Db.dailyPriceParams row).Dividends = Db.decimalPtr row.Dividends ∧
        (Db.dailyPriceParams row).MarketCap =
          Db.sanitizeDecimal row.MarketCap "market_cap" row.Ticker 2 ∧
        (Db.dailyPriceParams row).PE = Db.sanitizeDecimal row.PE "pe_ratio" row.Ticker 4) ∧
    (∀ row : Ingest.DailyRow,
        (Db.benchmarkPriceParams row).Open = Db.decimalPtr row.Open ∧
        (Db.benchmarkPriceParams row).CloseUnadj = Db.decimalPtr row.CloseUnadj) ∧
    (∀ d : Option ℚ, Db.decimalPtr d = d) := by
  refine ⟨fun x field ticker scale => rfl, fun field ticker scale => rfl,
    ⟨rfl, rfl, rfl⟩, fun rows => by simp [Db.metricsBatchQueue],
    fun rows => by simp [Db.dailyBatchQueue],
    fun rows => by simp [Db.benchmarkBatchQueue],
    fun row => ⟨rfl, rfl, rfl, rfl⟩, fun row => ⟨rfl, rfl⟩,
    fun d => by cases d <;> rfl⟩

/-- C1 is false as stated: the open column of daily_prices and
benchmark_prices is DECIMAL(18,6), whose representable magnitude for
scale 6 is 10^12, yet a daily row whose open price is 10^13 has the
out-of-range number bound into both upsert statements, not null. -/
theorem claim_C1_counterexample :
    Db.dailyPricesColumnScale "open" = some 6 ∧
    Db.benchmarkPricesColumnScale "open" = some 6 ∧
    |((10 : ℚ) ^ (13 : Nat))| > Db.limitForScale 6 ∧
    (Db.dailyPriceParams Samples.bigOpenRow).Open = some ((10 : ℚ) ^ (13 : Nat)) ∧
    (Db.benchmarkPriceParams Samples.bigOpenRow).Open = some ((10 : ℚ) ^ (13 : Nat)) := by
  refine ⟨by decide, by decide, ?_, rfl, rfl⟩
  rw [abs_of_pos (by positivity)]
  have : Db.limitForScale 6 = (10 : ℚ) ^ (12 : Nat) := rfl
  rw [this]
  norm_num

/-- C2 is false as stated: UpsertCompanies queues the entire input as one
batch with no chunking, and when the second of two statements fails it
returns the error although one row was already written, so its aggregate
rows-written is not zero. -/
theorem claim_C2_counterexample :
    Db.UpsertCompanies (fun i => decide (i = 1)) [Samples.tickerA, Samples.tickerB] =
      (1, true) := by
  decide

/-- C2 (amended).  UpsertFinancialMetrics and UpsertDailyPrices split
their input into chunks of at most dbBatchSize = 1000 rows whose
concatenation is the input, attempt every chunk, return the sum of the
per-chunk counts, and report an error exactly when some chunk reported an
error and the aggregate rows-written is zero.  UpsertCompanies and
UpsertBenchmarkPrices instead send the whole input as a single batch and
report an error exactly when some statement of the batch fails, even when
earlier rows of that batch were written. -/
theorem claim_C2_chunking :
    (∀ (α : Type) (rows : List α),
        (Db.chunksOf Db.dbBatchSize rows).all
          (fun c => decide (c.length ≤ Db.dbBatchSize)) = true) ∧
    (∀ (α : Type) (rows : List α), (Db.chunksOf Db.dbBatchSize rows).flatten = rows) ∧
    (∀ (f : List Ingest.SF1Row → Nat × Bool) (rows : List Ingest.SF1Row),
        (Db.UpsertFinancialMetrics f rows).1 =
          (((Db.chunksOf Db.dbBatchSize rows).map f).map Prod.fst).sum ∧
        ((Db.UpsertFinancialMetrics f rows).2 = true ↔
          ((Db.chunksOf Db.dbBatchSize rows).map f).any Prod.snd = true ∧
          (((Db.chunksOf Db.dbBatchSize rows).map f).map Prod.fst).sum = 0)) ∧
    (∀ (f : List Ingest.DailyRow → Nat × Bool) (rows : List Ingest.DailyRow),
        (Db.UpsertDailyPrices f rows).1 =
          (((Db.chunksOf Db.dbBatchSize rows).map f).map Prod.fst).sum ∧
        ((Db.UpsertDailyPrices f rows).2 = true ↔
          ((Db.chunksOf Db.dbBatchSize rows).map f).any Prod.snd = true ∧
          (((Db.chunksOf Db.dbBatchSize rows).map f).map Prod.fst).sum = 0)) ∧
    (∀ (g : Nat → Bool) (tickers : List Ingest.TickerRow),
        ((Db.UpsertCompanies g tickers).2 = true ↔
          ∃ i, i < tickers.length ∧ g i = true)) ∧
    (∀ (g : Nat → Bool) (rows : List Ingest.DailyRow),
        ((Db.UpsertBenchmarkPrices g rows).2 = true ↔
          ∃ i, i < rows.length ∧ g i = true)) := by
  refine ⟨fun α rows => chunksOf_len_le _ (by norm_num [Db.dbBatchSize]) rows,
    fun α rows => chunksOf_flatten _ rows,
    fun f rows => ⟨upsertChunked_fst f rows, upsertChunked_snd_iff f rows⟩,
    fun f rows => ⟨upsertChunked_fst f rows, upsertChunked_snd_iff f rows⟩,
    fun g tickers => ?_, fun g rows => ?_⟩
  · unfold Db.UpsertCompanies
    by_cases h : tickers.isEmpty
    · cases tickers with
      | nil => simp
      | cons x xs => simp at h
    · simp only [h, if_false, Bool.false_eq_true]
      exact execBatchLoop_err_iff g tickers.length
  · unfold Db.UpsertBenchmarkPrices
    by_cases h : rows.isEmpty
    · cases rows with
      | nil => simp
      | cons x xs => simp at h
    · simp only [h, if_false, Bool.false_eq_true]
      exact execBatchLoop_err_iff g rows.length

/-- C10 (confirmed).  The active value UpsertCompanies binds for every
ticker row is exactly the negation of IsDelisted: a delisted ticker is
stored inactive, a non-delisted one active, for every statement of the
queued batch. -/
theorem claim_C10_active_flag :
    (∀ t : Ingest.TickerRow, (Db.companyParams t).Active = !t.IsDelisted) ∧
    (∀ t : Ingest.TickerRow, ((Db.companyParams t).Active = false ↔ t.IsDelisted = true)) ∧
    (∀ ts : List Ingest.TickerRow,
        (Db.companiesBatchQueue ts).map (fun p => p.Active) =
          ts.map (fun t => !t.IsDelisted)) := by
  refine ⟨fun t => rfl, fun t => ?_, fun ts => ?_⟩
  · cases h : t.IsDelisted <;> simp [Db.companyParams, h]
  · simp only [Db.companiesBatchQueue, List.map_map]
    rfl

/-! Helper lemma for the IngestFundamentals dimension loop. -/

theorem ingestFundamentalsGo_snd_iff (up : List Ingest.SF1Row → Nat × Bool) :
    ∀ (dims : List (List Handlers.SF1Batch)) (acc : Nat),
      ((Handlers.ingestFundamentalsGo up dims acc).2 = true ↔
        dims.all (fun d => decide ((Handlers.fundamentalsDimLoop up d).2 = none)) = true) := by
  intro dims
  induction dims with
  | nil => intro acc; simp [Handlers.ingestFundamentalsGo]
  | cons d rest ih =>
    intro acc
    cases herr : (Handlers.fundamentalsDimLoop up d).2 with
    | some e =>
      have hstep : (Handlers.ingestFundamentalsGo up (d :: rest) acc).2 = false := by
        simp [Handlers.ingestFundamentalsGo, herr]
      rw [hstep, List.all_cons]
      simp [herr]
    | none =>
      have hstep : Handlers.ingestFundamentalsGo up (d :: rest) acc =
          Handlers.ingestFundamentalsGo up rest (acc + (Handlers.fundamentalsDimLoop up d).1) := by
        simp [Handlers.ingestFundamentalsGo, herr]
      rw [hstep, List.all_cons]
      simp [herr, ih]

/-- C3 (amended).  For IngestDaily a fetch-level error on the stream does
not stop the receive loop, already-written rows count toward the result,
and the response is a failure exactly when a fetch error occurred and
zero rows were written.  For IngestFundamentals the response succeeds
exactly when no dimension's stream delivered a fetch error: any
fetch-level error makes the handler report failure even when rows were
already written (the rows written before the error are still counted
into the running total in the success case). -/
theorem claim_C3_streaming :
    (∀ (e2 : String → Bool) (flag : Bool) (up : List Ingest.DailyRow → Nat × Bool)
        (batches : List Handlers.DailyBatch),
        (Handlers.IngestDaily e2 flag up batches).1 =
          (Handlers.dailyLoop e2 flag up batches).1 ∧
        ((Handlers.IngestDaily e2 flag up batches).2 = false ↔
          (Handlers.dailyLoop e2 flag up batches).2 = true ∧
          (Handlers.dailyLoop e2 flag up batches).1 = 0)) ∧
    (∀ (up : List Ingest.SF1Row → Nat × Bool) (dims : List (List Handlers.SF1Batch)),
        ((Handlers.IngestFundamentals up dims).2 = true ↔
          dims.all (fun d => decide ((Handlers.fundamentalsDimLoop up d).2 = none)) = true)) := by
  constructor
  · intro e2 flag up batches
    refine ⟨rfl, ?_⟩
    simp [Handlers.IngestDaily]
  · intro up dims
    exact ingestFundamentalsGo_snd_iff up dims 0

/-- C3 is false as stated: one fundamentals dimension whose stream
delivers a batch of one row (written successfully) followed by a fetch
error makes IngestFundamentals report failure although one row was
written, where the claim requires success whenever at least one row was
written. -/
theorem claim_C3_counterexample :
    Handlers.IngestFundamentals Samples.allOkUpsertSF1
      [[{ Rows := [Samples.sf1A], Error := none },
        { Rows := [], Error := some "fetch failed" }]] = (1, false) := by
  rfl

/-- C4 (amended).  A decode failure of a received response is treated by
fetchPage like any other doRequest failure: it consumes one attempt of
the 3-attempt budget and, absent cancellation, the loop retries after
the backoff; only after all three attempts fail is the last error
surfaced. -/
theorem claim_C4_decode_retry :
    (∀ (doReq : Nat → Except Ingest.FetchError Ingest.Response) (canceled : Nat → Bool)
        (msg : String) (r : Ingest.Response),
        doReq 0 = Except.error (Ingest.FetchError.decode msg) → canceled 0 = false →
        doReq 1 = Except.ok r →
        Ingest.fetchPage doReq canceled = (Except.ok r, 2, [2])) ∧
    (∀ (doReq : Nat → Except Ingest.FetchError Ingest.Response) (canceled : Nat → Bool)
        (m0 m1 m2 : String),
        doReq 0 = Except.error (Ingest.FetchError.decode m0) →
        doReq 1 = Except.error (Ingest.FetchError.decode m1) →
        doReq 2 = Except.error (Ingest.FetchError.decode m2) →
        canceled 0 = false → canceled 1 = false → canceled 2 = false →
        Ingest.fetchPage doReq canceled =
          (Except.error (Ingest.FetchError.decode m2), 3, [2, 4])) := by
  constructor
  · intro doReq canceled msg r h0 hc0 h1
    simp [Ingest.fetchPage, Ingest.retryLoop, h0, hc0, h1]
  · intro doReq canceled m0 m1 m2 h0 h1 h2 hc0 hc1 hc2
    simp [Ingest.fetchPage, Ingest.retryLoop, h0, h1, h2, hc0, hc1, hc2]

/-- Witness for C4 (amended): a decode failure on attempt 0 followed by a
successful attempt 1 with no cancellation yields the success after one
retry of 2 seconds. -/
theorem claim_C4_witness :
    Samples.decodeThenOk 0 = Except.error (Ingest.FetchError.decode "invalid character") ∧
    (fun _ : Nat => false) 0 = false ∧
    Samples.decodeThenOk 1 = Except.ok Ingest.emptyResponse ∧
    Ingest.fetchPage Samples.decodeThenOk (fun _ => false) =
      (Except.ok Ingest.emptyResponse, 2, [2]) :=
  ⟨rfl, rfl, rfl,
    claim_C4_decode_retry.1 Samples.decodeThenOk (fun _ => false) "invalid character"
      Ingest.emptyResponse rfl rfl rfl⟩

/-- C4 is false as stated: with a decode failure on attempt 0, fetchPage
performs a second doRequest call after a 2-second backoff instead of
surfacing the decode failure immediately (with decodeThenOk the second
call makes the fetch succeed; with decodeAlways all 3 attempts of the
budget are consumed by decode failures). -/
theorem claim_C4_counterexample :
    Ingest.fetchPage Samples.decodeThenOk (fun _ => false) =
      (Except.ok Ingest.emptyResponse, 2, [2]) ∧
    Ingest.fetchPage Samples.decodeAlways (fun _ => false) =
      (Except.error (Ingest.FetchError.decode "2"), 3, [2, 4]) :=
  ⟨rfl, rfl⟩

/-- C8 (confirmed).  fetchPage performs at most 3 doRequest attempts;
every retry attempt n (n = 1, 2) is preceded by a wait of 2^n seconds,
so the waits performed are exactly the prefix of [2, 4] matching the
retries made; and when attempt k fails and the cancellation signal has
fired by the post-attempt check, fetchPage returns the cancellation
error immediately and performs no further attempts. -/
theorem claim_C8_retry_budget :
    (∀ (doReq : Nat → Except Ingest.FetchError Ingest.Response) (canceled : Nat → Bool),
        (Ingest.fetchPage doReq canceled).2.1 ≤ 3 ∧
        (Ingest.fetchPage doReq canceled).2.2 =
          [2, 4].take ((Ingest.fetchPage doReq canceled).2.1 - 1)) ∧
    (∀ (doReq : Nat → Except Ingest.FetchError Ingest.Response) (canceled : Nat → Bool)
        (k : Nat), k < 3 →
        (∀ j, j ≤ k → ∃ e, doReq j = Except.error e) →
        (∀ j, j < k → canceled j = false) → canceled k = true →
        Ingest.fetchPage doReq canceled =
          (Except.error Ingest.FetchError.ctxCanceled, k + 1, [2, 4].take k)) := by
  constructor
  · intro doReq canceled
    cases h0 : doReq 0 with
    | ok r => simp [Ingest.fetchPage, Ingest.retryLoop, h0]
    | error e0 =>
      cases hc0 : canceled 0 with
      | true => simp [Ingest.fetchPage, Ingest.retryLoop, h0, hc0]
      | false =>
        cases h1 : doReq 1 with
        | ok r => simp [Ingest.fetchPage, Ingest.retryLoop, h0, hc0, h1]
        | error e1 =>
          cases hc1 : canceled 1 with
          | true => simp [Ingest.fetchPage, Ingest.retryLoop, h0, hc0, h1, hc1]
          | false =>
            cases h2 : doReq 2 with
            | ok r => simp [Ingest.fetchPage, Ingest.retryLoop, h0, hc0, h1, hc1, h2]
            | error e2 =>
              cases hc2 : canceled 2 with
              | true =>
                simp [Ingest.fetchPage, Ingest.retryLoop, h0, hc0, h1, hc1, h2, hc2]
              | false =>
                simp [Ingest.fetchPage, Ingest.retryLoop, h0, hc0, h1, hc1, h2, hc2]
  · intro doReq canceled k hk hfail hprev hcanc
    interval_cases k
    · obtain ⟨e0, h0⟩ := hfail 0 (Nat.le_refl 0)
      simp [Ingest.fetchPage, Ingest.retryLoop, h0, hcanc]
    · obtain ⟨e0, h0⟩ := hfail 0 (by omega)
      obtain ⟨e1, h1⟩ := hfail 1 (Nat.le_refl 1)
      have hc0 : canceled 0 = false := hprev 0 (by omega)
      simp [Ingest.fetchPage, Ingest.retryLoop, h0, h1, hc0, hcanc]
    · obtain ⟨e0, h0⟩ := hfail 0 (by omega)
      obtain ⟨e1, h1⟩ := hfail 1 (by omega)
      obtain ⟨e2, h2⟩ := hfail 2 (Nat.le_refl 2)
      have hc0 : canceled 0 = false := hprev 0 (by omega)
      have hc1 : canceled 1 = false := hprev 1 (by omega)
      simp [Ingest.fetchPage, Ingest.retryLoop, h0, h1, h2, hc0, hc1, hcanc]

/-- Witness for C8: with every attempt failing to decode and the
cancellation signal fired at the first post-attempt check, fetchPage
returns the cancellation error after a single doRequest call and no
backoff wait. -/
theorem claim_C8_witness :
    (0 : Nat) < 3 ∧
    (∀ j, j ≤ 0 → ∃ e, Samples.decodeAlways j = Except.error e) ∧
    (∀ j : Nat, j < 0 → (fun _ : Nat => true) j = false) ∧
    (fun _ : Nat => true) 0 = true ∧
    Ingest.fetchPage Samples.decodeAlways (fun _ => true) =
      (Except.error Ingest.FetchError.ctxCanceled, 1, []) := by
  refine ⟨by norm_num, fun j hj => ⟨Ingest.FetchError.decode (toString j), rfl⟩,
    fun j hj => absurd hj (by omega), rfl, ?_⟩
  exact claim_C8_retry_budget.2 Samples.decodeAlways (fun _ => true) 0 (by norm_num)
    (fun j hj => ⟨Ingest.FetchError.decode (toString j), rfl⟩)
    (fun j hj => absurd hj (by omega)) rfl

/-! Helper lemmas for the FetchTable pagination loop. -/

theorem fetchTableLoop_eq :
    ∀ (pages : List Ingest.Response) (acc : Ingest.Response),
      Ingest.fetchTableLoop acc pages =
        (Ingest.consumedPages pages).map (fun ps => ps.foldl Ingest.mergeResp acc) := by
  intro pages
  induction pages with
  | nil => intro acc; simp [Ingest.fetchTableLoop, Ingest.consumedPages]
  | cons p rest ih =>
    intro acc
    by_cases hstop : Ingest.stopCursor p = true
    · simp [Ingest.fetchTableLoop, Ingest.consumedPages, hstop]
    · simp only [Ingest.fetchTableLoop, Ingest.consumedPages, hstop, if_false,
        Bool.false_eq_true]
      rw [ih (Ingest.mergeResp acc p), Option.map_map]
      rfl

theorem foldl_mergeResp :
    ∀ (ps : List Ingest.Response) (acc : Ingest.Response),
      ps.foldl Ingest.mergeResp acc =
        { Datatable :=
            { Columns :=
                if acc.Datatable.Columns.isEmpty then Ingest.firstColumns ps
                else acc.Datatable.Columns
              Data := acc.Datatable.Data ++ (ps.map (fun p => p.Datatable.Data)).flatten }
          Meta := acc.Meta } := by
  intro ps
  induction ps with
  | nil =>
    intro acc
    obtain ⟨⟨data, cols⟩, meta⟩ := acc
    cases cols with
    | nil => simp [Ingest.firstColumns]
    | cons c cs => simp [Ingest.firstColumns]
  | cons p rest ih =>
    intro acc
    rw [List.foldl_cons, ih (Ingest.mergeResp acc p)]
    by_cases ha : acc.Datatable.Columns.isEmpty
    · by_cases hp : p.Datatable.Columns.isEmpty
      · simp [Ingest.mergeResp, Ingest.firstColumns, ha, hp, List.append_assoc]
      · simp [Ingest.mergeResp, Ingest.firstColumns, ha, hp, List.append_assoc]
    · simp [Ingest.mergeResp, Ingest.firstColumns, ha, List.append_assoc]

/-- C5 (amended).  FetchTable equals the merge of exactly the pages up to
and including the first page whose next_cursor_id is nil or empty (and
fails when no such page arrives); the merged data row count is the sum of
the consumed pages' row counts; and the merged column schema is the
column list of the first consumed page whose columns are non-empty —
which is the first page whenever the first page's column list is
non-empty, but not when the first page carries an empty column list. -/
theorem claim_C5_pagination :
    (∀ pages : List Ingest.Response,
        Ingest.FetchTable pages = (Ingest.consumedPages pages).map Ingest.mergeAll) ∧
    (∀ ps : List Ingest.Response,
        (Ingest.mergeAll ps).Datatable.Data.length =
          (ps.map (fun p => p.Datatable.Data.length)).sum) ∧
    (∀ (p : Ingest.Response) (ps : List Ingest.Response),
        (Ingest.mergeAll (p :: ps)).Datatable.Columns =
          if p.Datatable.Columns.isEmpty then (Ingest.mergeAll ps).Datatable.Columns
          else p.Datatable.Columns) ∧
    (∀ (p : Ingest.Response) (rest : List Ingest.Response),
        Ingest.consumedPages (p :: rest) =
          if Ingest.stopCursor p then some [p]
          else (Ingest.consumedPages rest).map (fun ps => p :: ps)) ∧
    Ingest.consumedPages ([] : List Ingest.Response) = none := by
  refine ⟨fun pages => ?_, fun ps => ?_, fun p ps => rfl, fun p rest => rfl, rfl⟩
  · rw [Ingest.FetchTable, fetchTableLoop_eq]
    cases h : Ingest.consumedPages pages with
    | none => rfl
    | some ps =>
      show some (ps.foldl Ingest.mergeResp Ingest.emptyResponse) = some (Ingest.mergeAll ps)
      rw [foldl_mergeResp]
      rfl
  · simp only [Ingest.mergeAll, List.length_flatten, List.map_map]
    rfl

/-- C5 is false as stated: when the first page carries an empty column
list (and a non-empty cursor), the merged response's column schema is
taken from the second page, so it differs from that of the first page. -/
theorem claim_C5_counterexample :
    Ingest.FetchTable [Samples.pageNoCols, Samples.pageWithCols] = some Samples.mergedC5 ∧
    Samples.mergedC5.Datatable.Columns ≠ Samples.pageNoCols.Datatable.Columns := by
  exact ⟨rfl, by decide⟩

/-! Helper lemmas for the parsers. -/

theorem all_filter_self {α : Type} (p : α → Bool) (l : List α) :
    (l.filter p).all p = true := by
  simp only [List.all_eq_true]
  intro a ha
  exact (List.mem_filter.mp ha).2

/-- C6 (confirmed).  Every parse pass returns without error; its output
row count never exceeds the input row count; every output row carries a
non-empty ticker; and a row whose ticker cell is missing or null yields
the empty-string ticker from getString, so the record built from it is
excluded by each parse pass's filter. -/
theorem claim_C6_parsers :
    (∀ resp : Ingest.Response, ∃ out, Ingest.ParseTickers resp = Except.ok out ∧
        out.length ≤ resp.Datatable.Data.length ∧
        out.all (fun r => r.Ticker != "") = true) ∧
    (∀ resp : Ingest.Response, ∃ out, Ingest.ParseSF1 resp = Except.ok out ∧
        out.length ≤ resp.Datatable.Data.length ∧
        out.all (fun r => r.Ticker != "") = true) ∧
    (∀ resp : Ingest.Response, ∃ out, Ingest.ParseDaily resp = Except.ok out ∧
        out.length ≤ resp.Datatable.Data.length ∧
        out.all (fun r => r.Ticker != "") = true) ∧
    (∀ resp : Ingest.Response, ∃ out, Ingest.ParseSP500 resp = Except.ok out ∧
        out.length ≤ resp.Datatable.Data.length ∧
        out.all (fun r => r.Ticker != "") = true) ∧
    (∀ (row : List Ingest.Value) (idx : String → Option Nat),
        Ingest.cellAt row idx "ticker" = none →
        Ingest.getString row idx "ticker" = "" ∧
        (Ingest.tickerOfRow idx row).Ticker = "" ∧
        (Ingest.sp500OfRow idx row).Ticker = "" ∧
        (∀ sr, Ingest.sf1OfRow idx row = some sr → sr.Ticker = "") ∧
        (∀ dr, Ingest.dailyOfRow idx row = some dr → dr.Ticker = "")) := by
  refine ⟨fun resp => ⟨_, rfl, ?_, all_filter_self _ _⟩,
    fun resp => ⟨_, rfl, ?_, all_filter_self _ _⟩,
    fun resp => ⟨_, rfl, ?_, all_filter_self _ _⟩,
    fun resp => ⟨_, rfl, ?_, all_filter_self _ _⟩,
    fun row idx h => ?_⟩
  · exact le_trans (List.length_filter_le _ _)
      (le_of_eq (List.length_map _ _))
  · exact le_trans (List.length_filter_le _ _) (List.length_filterMap_le _ _)
  · exact le_trans (List.length_filter_le _ _) (List.length_filterMap_le _ _)
  · exact le_trans (List.length_filter_le _ _)
      (le_of_eq (List.length_map _ _))
  · have hgs : Ingest.getString row idx "ticker" = "" := by
      simp [Ingest.getString, h]
    refine ⟨hgs, hgs, hgs, ?_, ?_⟩
    · intro sr hsr
      cases hdk : Ingest.getTime row idx "datekey" with
      | none => simp [Ingest.sf1OfRow, hdk] at hsr
      | some dk =>
        simp only [Ingest.sf1OfRow, hdk, Option.some.injEq] at hsr
        rw [← hsr]
        exact hgs
    · intro dr hdr
      cases hdt : Ingest.getTime row idx "date" with
      | none => simp [Ingest.dailyOfRow, hdt] at hdr
      | some dt =>
        simp only [Ingest.dailyOfRow, hdt, Option.some.injEq] at hdr
        rw [← hdr]
        exact hgs

/-- Witness for C6: a single-cell row holding null under a schema whose
only column is named ticker has a missing natural key, and getString
yields the empty string for it, excluding it from every parse pass. -/
theorem claim_C6_witness :
    Ingest.cellAt [Ingest.Value.null]
      (Ingest.buildColumnIndex [{ Name := "ticker", TypeName := "String" }]) "ticker" =
      none ∧
    Ingest.getString [Ingest.Value.null]
      (Ingest.buildColumnIndex [{ Name := "ticker", TypeName := "String" }]) "ticker" =
      "" :=
  ⟨by decide, (claim_C6_parsers.2.2.2.2 [Ingest.Value.null]
      (Ingest.buildColumnIndex [{ Name := "ticker", TypeName := "String" }])
      (by decide)).1⟩

/-! Helper lemmas for the SQL upsert table semantics. -/

theorem notMem_countKey_zero {κ α : Type} [DecidableEq κ] (t : Db.Table κ α) (k : κ)
    (h : k ∉ t.map Prod.fst) : Db.countKey t k = 0 := by
  induction t with
  | nil => rfl
  | cons p rest ih =>
    simp only [List.map_cons, List.mem_cons, not_or] at h
    have hpk : ¬p.1 = k := fun hh => h.1 hh.symm
    simp only [Db.countKey, List.filter_cons, decide_eq_true_eq]
    rw [if_neg hpk]
    exact ih h.2

theorem countKey_nodup_mem {κ α : Type} [DecidableEq κ] (t : Db.Table κ α) (k : κ)
    (hnd : Db.keysNodup t) (hmem : k ∈ t.map Prod.fst) : Db.countKey t k = 1 := by
  induction t with
  | nil => simp at hmem
  | cons p rest ih =>
    simp only [Db.keysNodup, List.map_cons, List.nodup_cons] at hnd
    simp only [List.map_cons, List.mem_cons] at hmem
    simp only [Db.countKey, List.filter_cons, decide_eq_true_eq]
    by_cases hpk : p.1 = k
    · rw [if_pos hpk]
      have hzero : Db.countKey rest k = 0 := by
        apply notMem_countKey_zero
        rw [← hpk]
        exact hnd.1
      simp only [List.length_cons]
      rw [show (rest.filter (fun p => decide (p.1 = k))).length = Db.countKey rest k from rfl,
        hzero]
    · rw [if_neg hpk]
      rcases hmem with hmem | hmem
      · exact absurd hmem.symm hpk
      · exact ih hnd.2 hmem

theorem upsertRow_keys {κ α : Type} [DecidableEq κ] (t : Db.Table κ α) (k : κ) (v : α) :
    (Db.upsertRow t k v).map Prod.fst =
      if t.any (fun p => decide (p.1 = k)) then t.map Prod.fst
      else t.map Prod.fst ++ [k] := by
  unfold Db.upsertRow
  by_cases h : t.any (fun p => decide (p.1 = k)) = true
  · rw [if_pos h, if_pos h]
    induction t with
    | nil => rfl
    | cons p rest ih =>
      by_cases hpk : p.1 = k
      · simp only [List.map_cons, if_pos hpk]
        by_cases hr : rest.any (fun q => decide (q.1 = k)) = true
        · rw [ih hr]
          simp [hpk]
        · have : (rest.map (fun q => if q.1 = k then (k, v) else q)) = rest.map id := by
            apply List.map_congr_left
            intro q hq
            rw [if_neg]
            · rfl
            · intro hqk
              apply hr
              rw [List.any_eq_true]
              exact ⟨q, hq, by simp [hqk]⟩
          rw [this]
          simp [hpk]
      · simp only [List.map_cons, if_neg hpk]
        have hr : rest.any (fun q => decide (q.1 = k)) = true := by
          simpa [List.any_cons, hpk] using h
        rw [ih hr]
  · rw [if_neg h, if_neg h]
    simp

theorem keysNodup_upsertRow {κ α : Type} [DecidableEq κ] (t : Db.Table κ α) (k : κ) (v : α)
    (h : Db.keysNodup t) : Db.keysNodup (Db.upsertRow t k v) := by
  unfold Db.keysNodup
  rw [upsertRow_keys]
  by_cases hany : t.any (fun p => decide (p.1 = k)) = true
  · rw [if_pos hany]
    exact h
  · rw [if_neg hany]
    have hk : k ∉ t.map Prod.fst := by
      intro hmem
      apply hany
      rw [List.any_eq_true]
      obtain ⟨p, hp, hfst⟩ := List.mem_map.mp hmem
      exact ⟨p, hp, by simp [hfst]⟩
    have h2 : (t.map Prod.fst).Nodup := h
    simp [List.nodup_append, h2, hk]

theorem find?_replace {κ α : Type} [DecidableEq κ] (t : Db.Table κ α) (k : κ) (v : α)
    (h : t.any (fun p => decide (p.1 = k)) = true) :
    (t.map (fun p => if p.1 = k then (k, v) else p)).find? (fun p => decide (p.1 = k)) =
      some (k, v) := by
  induction t with
  | nil => simp at h
  | cons p rest ih =>
    by_cases hpk : p.1 = k
    · rw [List.map_cons, if_pos hpk, List.find?_cons_of_pos _ (by simp)]
    · have hr : rest.any (fun q => decide (q.1 = k)) = true := by
        simpa [List.any_cons, hpk] using h
      rw [List.map_cons, if_neg hpk, List.find?_cons_of_neg _ (by simp [hpk])]
      exact ih hr

theorem find?_append_missing {κ α : Type} [DecidableEq κ] (t : Db.Table κ α) (k : κ) (v : α)
    (h : ¬t.any (fun p => decide (p.1 = k)) = true) :
    (t ++ [(k, v)]).find? (fun p => decide (p.1 = k)) = some (k, v) := by
  induction t with
  | nil =>
    rw [List.nil_append, List.find?_cons_of_pos _ (by simp)]
  | cons p rest ih =>
    simp only [List.any_cons, Bool.or_eq_true, decide_eq_true_eq, not_or] at h
    rw [List.cons_append, List.find?_cons_of_neg _ (by simp [h.1])]
    apply ih
    simp only [Bool.not_eq_true]
    rw [← Bool.not_eq_true]
    exact h.2

theorem lookupKey_upsertRow {κ α : Type} [DecidableEq κ] (t : Db.Table κ α) (k : κ) (v : α) :
    Db.lookupKey (Db.upsertRow t k v) k = some v := by
  unfold Db.upsertRow Db.lookupKey
  by_cases h : t.any (fun p => decide (p.1 = k)) = true
  · rw [if_pos h, find?_replace t k v h]
    rfl
  · rw [if_neg h, find?_append_missing t k v h]
    rfl

theorem countKey_upsertRow {κ α : Type} [DecidableEq κ] (t : Db.Table κ α) (k : κ) (v : α)
    (h : Db.keysNodup t) : Db.countKey (Db.upsertRow t k v) k = 1 := by
  apply countKey_nodup_mem _ _ (keysNodup_upsertRow t k v h)
  rw [upsertRow_keys]
  by_cases hany : t.any (fun p => decide (p.1 = k)) = true
  · rw [if_pos hany]
    rw [List.any_eq_true] at hany
    obtain ⟨p, hp, hfst⟩ := hany
    exact List.mem_map.mpr ⟨p, hp, of_decide_eq_true hfst⟩
  · rw [if_neg hany]
    simp

theorem upsert_iterate_spec {κ α : Type} [DecidableEq κ] :
    ∀ (n : Nat) (t : Db.Table κ α) (k : κ) (v : α), Db.keysNodup t →
      Db.countKey ((fun s => Db.upsertRow s k v)^[n + 1] t) k = 1 ∧
      Db.lookupKey ((fun s => Db.upsertRow s k v)^[n + 1] t) k = some v ∧
      Db.keysNodup ((fun s => Db.upsertRow s k v)^[n + 1] t) := by
  intro n
  induction n with
  | zero =>
    intro t k v h
    exact ⟨countKey_upsertRow t k v h, lookupKey_upsertRow t k v,
      keysNodup_upsertRow t k v h⟩
  | succ n ih =>
    intro t k v h
    rw [Function.iterate_succ_apply]
    exact ih (Db.upsertRow t k v) k v (keysNodup_upsertRow t k v h)

/-- C7 (confirmed).  For each of the four entity upserts, repeatedly
applying the upsert statement of one identical row to a table satisfying
the uniqueness constraint leaves exactly one stored row for that row's
identity key (ticker; ticker, date_key, dimension; ticker, date), and the
stored bound fields equal the most recently upserted parameters. -/
theorem claim_C7_idempotent_upserts :
    (∀ (n : Nat) (t : Db.Table String Db.CompanyParams) (row : Ingest.TickerRow),
        Db.keysNodup t →
        Db.countKey ((fun s => Db.applyCompaniesUpsert s row)^[n + 1] t)
          (Db.companiesKey (Db.companyParams row)) = 1 ∧
        Db.lookupKey ((fun s => Db.applyCompaniesUpsert s row)^[n + 1] t)
          (Db.companiesKey (Db.companyParams row)) = some (Db.companyParams row)) ∧
    (∀ (n : Nat) (t : Db.Table (String × Ingest.GoTime × String) Db.FinancialMetricsParams)
        (row : Ingest.SF1Row), Db.keysNodup t →
        Db.countKey ((fun s => Db.applyMetricsUpsert s row)^[n + 1] t)
          (Db.metricsKey (Db.financialMetricsParams row)) = 1 ∧
        Db.lookupKey ((fun s => Db.applyMetricsUpsert s row)^[n + 1] t)
          (Db.metricsKey (Db.financialMetricsParams row)) =
          some (Db.financialMetricsParams row)) ∧
    (∀ (n : Nat) (t : Db.Table (String × Ingest.GoTime) Db.DailyPriceParams)
        (row : Ingest.DailyRow), Db.keysNodup t →
        Db.countKey ((fun s => Db.applyDailyUpsert s row)^[n + 1] t)
          (Db.dailyKey (Db.dailyPriceParams row)) = 1 ∧
        Db.lookupKey ((fun s => Db.applyDailyUpsert s row)^[n + 1] t)
          (Db.dailyKey (Db.dailyPriceParams row)) = some (Db.dailyPriceParams row)) ∧
    (∀ (n : Nat) (t : Db.Table (String × Ingest.GoTime) Db.BenchmarkPriceParams)
        (row : Ingest.DailyRow), Db.keysNodup t →
        Db.countKey ((fun s => Db.applyBenchmarkUpsert s row)^[n + 1] t)
          (Db.benchmarkKey (Db.benchmarkPriceParams row)) = 1 ∧
        Db.lookupKey ((fun s => Db.applyBenchmarkUpsert s row)^[n + 1] t)
          (Db.benchmarkKey (Db.benchmarkPriceParams row)) =
          some (Db.benchmarkPriceParams row)) := by
  refine ⟨fun n t row h => ?_, fun n t row h => ?_, fun n t row h => ?_,
    fun n t row h => ?_⟩
  · have hs := upsert_iterate_spec n t (Db.companiesKey (Db.companyParams row))
      (Db.companyParams row) h
    exact ⟨hs.1, hs.2.1⟩
  · have hs := upsert_iterate_spec n t (Db.metricsKey (Db.financialMetricsParams row))
      (Db.financialMetricsParams row) h
    exact ⟨hs.1, hs.2.1⟩
  · have hs := upsert_iterate_spec n t (Db.dailyKey (Db.dailyPriceParams row))
      (Db.dailyPriceParams row) h
    exact ⟨hs.1, hs.2.1⟩
  · have hs := upsert_iterate_spec n t (Db.benchmarkKey (Db.benchmarkPriceParams row))
      (Db.benchmarkPriceParams row) h
    exact ⟨hs.1, hs.2.1⟩

/-- Witness for C7: upserting the same ticker row twice into the empty
companies table leaves exactly one row for its ticker, holding its
parameters. -/
theorem claim_C7_witness :
    Db.keysNodup ([] : Db.Table String Db.CompanyParams) ∧
    (Db.countKey ((fun s => Db.applyCompaniesUpsert s Samples.tickerA)^[2]
        ([] : Db.Table String Db.CompanyParams))
      (Db.companiesKey (Db.companyParams Samples.tickerA)) = 1 ∧
    Db.lookupKey ((fun s => Db.applyCompaniesUpsert s Samples.tickerA)^[2]
        ([] : Db.Table String Db.CompanyParams))
      (Db.companiesKey (Db.companyParams Samples.tickerA)) =
      some (Db.companyParams Samples.tickerA)) :=
  ⟨by simp [Db.keysNodup],
    claim_C7_idempotent_upserts.1 1 [] Samples.tickerA (by simp [Db.keysNodup])⟩

/-- C9 (confirmed).  A fundamentals row with a valid datekey and a
missing or unparsable reportperiod parses to a record whose ReportPeriod
is absent; upsertFinancialMetricsBatch then binds the record's DateKey as
the report_period parameter, and the stored row for the record's identity
key holds that value. -/
theorem claim_C9_reportperiod_fallback :
    (∀ (idx : String → Option Nat) (row : List Ingest.Value) (d : Ingest.GoTime),
        Ingest.getTime row idx "datekey" = some d →
        Ingest.getTime row idx "reportperiod" = none →
        ∃ sr, Ingest.sf1OfRow idx row = some sr ∧ sr.DateKey = d ∧
          sr.ReportPeriod = none ∧ (Db.financialMetricsParams sr).ReportPeriod = d) ∧
    (∀ sr : Ingest.SF1Row, sr.ReportPeriod = none →
        (Db.financialMetricsParams sr).ReportPeriod = sr.DateKey) ∧
    (∀ (t : Db.Table (String × Ingest.GoTime × String) Db.FinancialMetricsParams)
        (sr : Ingest.SF1Row), sr.ReportPeriod = none →
        Db.lookupKey (Db.applyMetricsUpsert t sr)
          (Db.metricsKey (Db.financialMetricsParams sr)) =
          some (Db.financialMetricsParams sr) ∧
        (Db.financialMetricsParams sr).ReportPeriod = sr.DateKey) := by
  refine ⟨fun idx row d hdk hrp => ?_, fun sr hrp => ?_, fun t sr hrp => ?_⟩
  · unfold Ingest.sf1OfRow
    rw [hdk]
    refine ⟨_, rfl, rfl, hrp, ?_⟩
    simp [Db.financialMetricsParams, hrp]
  · simp [Db.financialMetricsParams, hrp]
  · exact ⟨lookupKey_upsertRow t _ _, by simp [Db.financialMetricsParams, hrp]⟩

/-- Witness for C9: a raw row holding ticker AAPL and datekey 2024-01-02
under a schema with no reportperiod column parses with DateKey
2024-01-02, an absent ReportPeriod, and a bound report_period parameter
of 2024-01-02. -/
theorem claim_C9_witness :
    Ingest.getTime Samples.sf1RawRow (Ingest.buildColumnIndex Samples.sf1Cols) "datekey" =
      some Samples.d0 ∧
    Ingest.getTime Samples.sf1RawRow (Ingest.buildColumnIndex Samples.sf1Cols)
      "reportperiod" = none ∧
    ∃ sr, Ingest.sf1OfRow (Ingest.buildColumnIndex Samples.sf1Cols) Samples.sf1RawRow =
        some sr ∧
      sr.DateKey = Samples.d0 ∧ sr.ReportPeriod = none ∧
      (Db.financialMetricsParams sr).ReportPeriod = Samples.d0 :=
  ⟨by decide, by decide,
    claim_C9_reportperiod_fallback.1 (Ingest.buildColumnIndex Samples.sf1Cols)
      Samples.sf1RawRow Samples.d0 (by decide) (by decide)⟩
